import Mathlib

/-!
Verification development for the prompt-compilation core of the `chat-cf`
repository (CBS macro processor, knowledge/lorebook matcher, template
renderer, prompt builder).

Texts are shallowly embedded as `List Char` (`Text`).  JavaScript regex
replacement loops are embedded as fuel-based structural scanners so that
every definition evaluates inside the kernel.  `Math.random()` is embedded
as an injected stream `Nat → Nat` with an explicit consumption counter
threaded through the pipeline, mirroring the global random source of the
runtime.  The lorebook engine (`src/services/lorebook-engine.ts`) is not
present in the analysed sources; its definitions are modelled from the
specification and the repository's unit tests, as marked below.
-/

namespace ChatCF

/-- Program texts are embedded as lists of characters. -/
abbrev Text := List Char

/-- Boolean test that `pat` occurs at the head of `l`. -/
def leadsWith : Text → Text → Bool
  | [], _ => true
  | _ :: _, [] => false
  | p :: ps, c :: cs => p == c && leadsWith ps cs

/-- Boolean test that `pat` occurs somewhere inside `l` (substring search). -/
def containsSeq (pat : Text) : Text → Bool
  | [] => leadsWith pat []
  | c :: rest => leadsWith pat (c :: rest) || containsSeq pat rest

/-- Split a text at every occurrence of the separator character, JavaScript
`String.prototype.split` style (an empty text yields one empty field). -/
def splitOnChar (sep : Char) : Text → List Text
  | [] => [[]]
  | c :: rest =>
    let r := splitOnChar sep rest
    if c == sep then [] :: r else (c :: r.headD []) :: r.tail

/-- Trim whitespace from both ends, as JavaScript `String.prototype.trim`. -/
def trimText (t : Text) : Text :=
  ((t.dropWhile Char.isWhitespace).reverse.dropWhile Char.isWhitespace).reverse

/-- Join texts with a single separator character between fields. -/
def joinWith (sep : Char) (ts : List Text) : Text :=
  List.intercalate [sep] ts

/-- Join with spaces, as `Array.prototype.join(' ')`. -/
def joinSpace (ts : List Text) : Text := joinWith ' ' ts

/-- Join with newlines, as `Array.prototype.join` over split lines. -/
def joinLines (ts : List Text) : Text := joinWith '\n' ts

/-! ## CBS macro processor, from `src/src/services/cbs-processor.ts`

The regexes `/\{\{name:([^}]+)\}\}/g` all share one shape: the literal
opener, a non-empty run of characters other than the closing brace, then
the two-character closer.  `scanGo` embeds the global-replace loop of such
a regex: at each position it either consumes a whole match or moves one
character forward, exactly as the JavaScript engine advances `lastIndex`. -/

/-- The two-character closer of every CBS macro. -/
def close2 : Text := "\x7d\x7d".toList

/-- Opener of the hidden-key macro. -/
def hiddenOpen : Text := "\x7b\x7bhidden_key:".toList

/-- Opener of the comment macro (its body may be empty: `[^}]*`). -/
def commentOpen : Text := "\x7b\x7b//".toList

/-- The literal char-reference macro. -/
def charLit : Text := "\x7b\x7bchar\x7d\x7d".toList

/-- The literal user-reference macro. -/
def userLit : Text := "\x7b\x7buser\x7d\x7d".toList

/-- Opener of the random-choice macro. -/
def randomOpen : Text := "\x7b\x7brandom:".toList

/-- Opener of the seeded pick macro. -/
def pickOpen : Text := "\x7b\x7bpick:".toList

/-- Opener of the dice-roll macro. -/
def rollOpen : Text := "\x7b\x7broll:".toList

/-- Opener of the reverse macro. -/
def reverseOpen : Text := "\x7b\x7breverse:".toList

/-- One global-replace pass for a regex `op([^}]+)?closer` (`ae` allows an
empty body, for the comment macro's `[^}]*`).  `mk` builds the replacement
from the matched body. -/
def scanGo (op : Text) (ae : Bool) (mk : Text → Text) : Nat → Text → Text
  | 0, l => l
  | _ + 1, [] => []
  | fuel + 1, c :: rest =>
    let l := c :: rest
    let after := l.drop op.length
    let inner := after.takeWhile (fun ch => ch != '\x7d')
    let close := after.drop inner.length
    if leadsWith op l && (ae || !inner.isEmpty) && leadsWith close2 close then
      mk inner ++ scanGo op ae mk fuel (close.drop 2)
    else
      c :: scanGo op ae mk fuel rest

/-- Global replacement of every match of `op([^}]+)closer` in `l`. -/
def scanReplace (op : Text) (ae : Bool) (mk : Text → Text) (l : Text) : Text :=
  scanGo op ae mk l.length l

/-- Whether one match of the macro shape occurs anywhere in the text; this
mirrors the guard of `scanGo` exactly. -/
def hasMatchGo (op : Text) (ae : Bool) : Nat → Text → Bool
  | 0, _ => false
  | _ + 1, [] => false
  | fuel + 1, c :: rest =>
    let l := c :: rest
    let after := l.drop op.length
    let inner := after.takeWhile (fun ch => ch != '\x7d')
    let close := after.drop inner.length
    if leadsWith op l && (ae || !inner.isEmpty) && leadsWith close2 close then
      true
    else
      hasMatchGo op ae fuel rest

/-- Whether the text contains a match of the given macro shape. -/
def hasCBSMatch (op : Text) (ae : Bool) (l : Text) : Bool :=
  hasMatchGo op ae l.length l

/-- Stateful variant of `scanGo` whose replacement consumes values from an
injected random stream; the counter records how many values were used. -/
def scanGoS (op : Text) (ae : Bool) (mkS : Text → Nat → Text × Nat) :
    Nat → Nat → Text → Text × Nat
  | 0, ctr, l => (l, ctr)
  | _ + 1, ctr, [] => ([], ctr)
  | fuel + 1, ctr, c :: rest =>
    let l := c :: rest
    let after := l.drop op.length
    let inner := after.takeWhile (fun ch => ch != '\x7d')
    let close := after.drop inner.length
    if leadsWith op l && (ae || !inner.isEmpty) && leadsWith close2 close then
      let r := mkS inner ctr
      let t := scanGoS op ae mkS fuel r.2 (close.drop 2)
      (r.1 ++ t.1, t.2)
    else
      let t := scanGoS op ae mkS fuel ctr rest
      (c :: t.1, t.2)

/-- Stateful global replacement (used by the `random` macro). -/
def scanReplaceS (op : Text) (ae : Bool) (mkS : Text → Nat → Text × Nat)
    (ctr : Nat) (l : Text) : Text × Nat :=
  scanGoS op ae mkS l.length ctr l

/-- Collect the body of every match, in order, without replacing anything
(the shape of `extractHiddenKeys`). -/
def extractGo (op : Text) : Nat → Text → List Text
  | 0, _ => []
  | _ + 1, [] => []
  | fuel + 1, c :: rest =>
    let l := c :: rest
    let after := l.drop op.length
    let inner := after.takeWhile (fun ch => ch != '\x7d')
    let close := after.drop inner.length
    if leadsWith op l && !inner.isEmpty && leadsWith close2 close then
      inner :: extractGo op fuel (close.drop 2)
    else
      extractGo op fuel rest

/-- Literal global replacement, as `text.replace(/pat/g, rep)` for a fixed
literal pattern. -/
def litGo (pat rep : Text) : Nat → Text → Text
  | 0, l => l
  | _ + 1, [] => []
  | fuel + 1, c :: rest =>
    if leadsWith pat (c :: rest) then
      rep ++ litGo pat rep fuel ((c :: rest).drop pat.length)
    else
      c :: litGo pat rep fuel rest

/-- Literal global replacement over a whole text. -/
def replaceLit (pat rep l : Text) : Text := litGo pat rep l.length l

/-- Macro context of the CBS processor (`CBSContext`). -/
structure CBSContext where
  charName : Text
  userName : Text
  conversationId : Option Text := none
deriving DecidableEq

/-- Strip `hidden_key` markers from visible text (`removeHiddenKeys`). -/
def removeHiddenKeys (t : Text) : Text :=
  scanReplace hiddenOpen false (fun _ => []) t

/-- Strip comment markers (`removeComments`). -/
def removeComments (t : Text) : Text :=
  scanReplace commentOpen true (fun _ => []) t

/-- Replace every char-reference macro with the character name. -/
def replaceChar (t charName : Text) : Text := replaceLit charLit charName t

/-- Replace every user-reference macro with the user name. -/
def replaceUser (t userName : Text) : Text := replaceLit userLit userName t

/-- The comma-split, trimmed option list of a `random`/`pick` body. -/
def optionsOf (inner : Text) : List Text :=
  (splitOnChar ',' inner).map trimText

/-- Replacement for one `random` match: consume one stream value and index
the option list with it (`Math.floor(Math.random()*choices.length)`). -/
def randomMk (rand : Nat → Nat) (inner : Text) (ctr : Nat) : Text × Nat :=
  let choices := optionsOf inner
  if choices.isEmpty then (randomOpen ++ inner ++ close2, ctr)
  else (choices.getD (rand ctr % choices.length) [], ctr + 1)

/-- Replace every random-choice macro, threading the stream counter. -/
def replaceRandomS (rand : Nat → Nat) (ctr : Nat) (t : Text) : Text × Nat :=
  scanReplaceS randomOpen false (randomMk rand) ctr t

/-- The 32-bit signed wrap used by the JavaScript `| 0`-style coercions in
`simpleHash` (`hash & hash` and the result of `<< 5`). -/
def toInt32 (n : Int) : Int := (n + 2 ^ 31) % 2 ^ 32 - 2 ^ 31

/-- One step of `simpleHash`: `hash = ((hash << 5) - hash) + charCode`
followed by the 32-bit coercion. -/
def hashStep (h : Int) (c : Char) : Int :=
  toInt32 (toInt32 (h * 32) - h + c.toNat)

/-- The stable string hash of the CBS processor (`simpleHash`). -/
def simpleHash (l : Text) : Int := l.foldl hashStep 0

/-- Replacement for one `pick` match: select deterministically by hashing
the seed concatenated with the exact matched macro text. -/
def pickMk (seed inner : Text) : Text :=
  let choices := optionsOf inner
  if choices.isEmpty then pickOpen ++ inner ++ close2
  else
    choices.getD
      ((simpleHash (seed ++ pickOpen ++ inner ++ close2)).natAbs % choices.length) []

/-- Replace every pick macro deterministically from the seed. -/
def replacePick (t seed : Text) : Text :=
  scanReplace pickOpen false (pickMk seed) t

/-- Match the roll macro `\x7b\x7broll:d?(\d+)\x7d\x7d` at the head of the
text; returns the exact matched text, its digit group and the remainder. -/
def rollMatchAt (l : Text) : Option (Text × Text × Text) :=
  if leadsWith rollOpen l then
    let after := l.drop rollOpen.length
    let hasD := leadsWith ['d'] after
    let after2 := if hasD then after.drop 1 else after
    let digits := after2.takeWhile Char.isDigit
    let close := after2.drop digits.length
    if !digits.isEmpty && leadsWith close2 close then
      some (rollOpen ++ (if hasD then ['d'] else []) ++ digits ++ close2,
            digits, close.drop 2)
    else none
  else none

/-- Decimal value of a digit run (the effect of `parseInt` on it). -/
def digitsToNat (digits : Text) : Nat :=
  digits.foldl (fun acc c => acc * 10 + (c.toNat - 48)) 0

/-- The global-replace loop of the roll macro, threading the stream
counter; a non-positive bound leaves the matched text unchanged. -/
def rollGoS (rand : Nat → Nat) : Nat → Nat → Text → Text × Nat
  | 0, ctr, l => (l, ctr)
  | _ + 1, ctr, [] => ([], ctr)
  | fuel + 1, ctr, c :: rest =>
    match rollMatchAt (c :: rest) with
    | some (matched, digits, rest2) =>
      let maxNum := digitsToNat digits
      if maxNum < 1 then
        let t := rollGoS rand fuel ctr rest2
        (matched ++ t.1, t.2)
      else
        let roll := rand ctr % maxNum + 1
        let t := rollGoS rand fuel (ctr + 1) rest2
        ((Nat.repr roll).toList ++ t.1, t.2)
    | none =>
      let t := rollGoS rand fuel ctr rest
      (c :: t.1, t.2)

/-- Replace every roll macro, threading the stream counter. -/
def replaceRollS (rand : Nat → Nat) (ctr : Nat) (t : Text) : Text × Nat :=
  rollGoS rand t.length ctr t

/-- Whether a roll-macro match occurs anywhere in the text. -/
def hasRollGo : Nat → Text → Bool
  | 0, _ => false
  | _ + 1, [] => false
  | fuel + 1, c :: rest =>
    (rollMatchAt (c :: rest)).isSome || hasRollGo fuel rest

/-- Whether the text contains a roll-macro match. -/
def hasRollMatch (l : Text) : Bool := hasRollGo l.length l

/-- Replace every reverse macro with its reversed body. -/
def replaceReverse (t : Text) : Text :=
  scanReplace reverseOpen false List.reverse t

/-- `extractHiddenKeys`: the body of every hidden-key marker, in order of
appearance, without mutating the input. -/
def extractHiddenKeys (l : Text) : List Text := extractGo hiddenOpen l.length l

/-- `CBSProcessor.process`, with the random stream and its consumption
counter made explicit.  The passes run in the fixed source order. -/
def processS (rand : Nat → Nat) (ctr : Nat) (text : Text) (ctx : CBSContext) :
    Text × Nat :=
  let t1 := removeHiddenKeys text
  let t2 := removeComments t1
  let t3 := replaceChar t2 ctx.charName
  let t4 := replaceUser t3 ctx.userName
  let r5 := replaceRandomS rand ctr t4
  let t6 := replacePick r5.1 (ctx.conversationId.getD [])
  let r7 := replaceRollS rand r5.2 t6
  (replaceReverse r7.1, r7.2)

/-- `process` at the start of a fresh random stream. -/
def processR (rand : Nat → Nat) (text : Text) (ctx : CBSContext) : Text :=
  (processS rand 0 text ctx).1

/-! ## Data model, from `src/src/models/character-card.ts` and the message
model used by the services (`id`, `conversation_id`, `role`, `content`,
`created_at`).  The untyped `extensions` records carry no data relevant to
the pipeline and are omitted. -/

/-- Message role. -/
inductive Role where
  | user
  | assistant
  | system
deriving DecidableEq

/-- A conversation message. -/
structure Message where
  id : Text
  conversation_id : Text
  role : Role
  content : Text
  created_at : Text
deriving DecidableEq

/-- A lorebook entry (`LorebookEntry`); the fields unused by the engine
(`id`, `comment`, `selective`, `secondary_keys`, `position`) are omitted. -/
structure LorebookEntry where
  keys : List Text
  content : Text
  enabled : Bool
  insertion_order : Int
  case_sensitive : Option Bool := none
  use_regex : Bool
  constant : Option Bool := none
  name : Option Text := none
  priority : Option Int := none
deriving DecidableEq

/-- A lorebook (`Lorebook`); only its ordered entry list feeds the engine. -/
structure Lorebook where
  entries : List LorebookEntry
deriving DecidableEq

/-- Parsed decorators of a lorebook entry (`ParsedDecorators`). -/
structure ParsedDecorators where
  depth : Option Nat := none
  role : Option Text := none
  activate_only_after : Option Nat := none
  activate_only_every : Option Nat := none
  position : Option Text := none
  scan_depth : Option Nat := none
  additional_keys : List (List Text) := []
  exclude_keys : List (List Text) := []
  activate : Bool := false
  dont_activate : Bool := false
deriving DecidableEq

/-- Character card data (`CharacterCardData`); `assets`, multilingual notes
and timestamps are omitted as the pipeline never reads them. -/
structure CharacterCardData where
  name : Text
  description : Text
  tags : List Text := []
  creator : Text := []
  character_version : Text := []
  mes_example : Text := []
  system_prompt : Text := []
  post_history_instructions : Text := []
  first_mes : Text
  alternate_greetings : List Text := []
  personality : Text := []
  scenario : Text := []
  creator_notes : Text := []
  character_book : Option Lorebook := none
  nickname : Option Text := none
  group_only_greetings : List Text := []
deriving DecidableEq

/-- A complete V3 character card (`CharacterCardV3`); the constant `spec`
and `spec_version` tags carry no information and are dropped. -/
structure CharacterCardV3 where
  data : CharacterCardData
deriving DecidableEq

/-- A matched lorebook entry (`MatchedEntry`). -/
structure MatchedEntry where
  entry : LorebookEntry
  decorators : ParsedDecorators
  processedContent : Text
deriving DecidableEq

/-- The scan context handed to the engine (`LorebookContext`). -/
structure LorebookContext where
  messages : List Message
  characterCard : CharacterCardData
  scanText : Text
  assistantMessageCount : Nat

/-! ## Knowledge matcher.

Modelled from the spec: `src/services/lorebook-engine.ts` is absent from
the analysed sources (only its unit tests, its design document and its
callers survive), so `parseDecorators`, `findMatches` and their helpers
below are modelled from spec section 4.2 and checked against
`tests/unit/lorebook-engine.test.ts`.  Regex search is performed by the
external JavaScript engine, so it enters as an oracle parameter
(`none` = pattern failed to compile, which skips the entry). -/

/-- Decorator marker `@@`. -/
def atat : Text := "@@".toList

/-- Parse one decorator line `@@name value`; `none` when the line is not a
decorator line. -/
def decLine? (line : Text) : Option (Text × Text) :=
  if leadsWith atat line then
    let body := line.drop 2
    let nm := body.takeWhile (fun ch => ch != ' ')
    some (nm, trimText (body.drop nm.length))
  else none

/-- Leading-digits numeric value of a decorator argument, `parseInt`
style; `none` when no leading digit is present (the line is then
ignored). -/
def parseNat? (v : Text) : Option Nat :=
  let digits := v.takeWhile Char.isDigit
  if digits.isEmpty then none else some (digitsToNat digits)

/-- Parse a key-group argument `[a, b, c]` (or a bare comma list) into its
trimmed keys. -/
def parseKeyGroup (v : Text) : List Text :=
  let core :=
    if leadsWith ['['] v && leadsWith [']'] v.reverse then (v.drop 1).dropLast
    else v
  (splitOnChar ',' core).map trimText

/-- Apply one recognized decorator line to the accumulated record;
unrecognized names and malformed numeric values leave it unchanged. -/
def applyDec (d : ParsedDecorators) (nm v : Text) : ParsedDecorators :=
  if nm = "depth".toList then
    match parseNat? v with
    | some n => { d with depth := some n }
    | none => d
  else if nm = "role".toList then { d with role := some v }
  else if nm = "activate_only_after".toList then
    match parseNat? v with
    | some n => { d with activate_only_after := some n }
    | none => d
  else if nm = "activate_only_every".toList then
    match parseNat? v with
    | some n => { d with activate_only_every := some n }
    | none => d
  else if nm = "position".toList then { d with position := some v }
  else if nm = "scan_depth".toList then
    match parseNat? v with
    | some n => { d with scan_depth := some n }
    | none => d
  else if nm = "additional_keys".toList then
    { d with additional_keys := d.additional_keys ++ [parseKeyGroup v] }
  else if nm = "exclude_keys".toList then
    { d with exclude_keys := d.exclude_keys ++ [parseKeyGroup v] }
  else if nm = "activate".toList then { d with activate := true }
  else if nm = "dont_activate".toList then { d with dont_activate := true }
  else d

/-- Consume the leading decorator block of a line list. -/
def parseDecGo : ParsedDecorators → List Text → ParsedDecorators × List Text
  | d, [] => (d, [])
  | d, line :: rest =>
    match decLine? line with
    | some (nm, v) => parseDecGo (applyDec d nm v) rest
    | none => (d, line :: rest)

/-- Modelled from the spec: parse the decorator block at the head of an
entry's content; the lines below the block are the effective content. -/
def parseDecorators (content : Text) : ParsedDecorators × Text :=
  let pd := parseDecGo {} (splitOnChar '\n' content)
  (pd.1, joinLines pd.2)

/-- The regex oracle: case-sensitivity flag, pattern, scan text; `none`
models a pattern-compile failure. -/
abbrev RegexOracle := Bool → Text → Text → Option Bool

/-- Lower-case a text, as `String.prototype.toLowerCase` on the pipeline's
alphabet. -/
def lowerText (t : Text) : Text := t.map Char.toLower

/-- Literal substring key matching, case-insensitive unless requested. -/
def litKeyHit (cs : Bool) (key scanT : Text) : Bool :=
  if cs then containsSeq key scanT
  else containsSeq (lowerText key) (lowerText scanT)

/-- One key's verdict; an empty key never matches. -/
def keyHit? (rm : RegexOracle) (useRegex cs : Bool) (scanT key : Text) :
    Option Bool :=
  if key.isEmpty then some false
  else if useRegex then rm cs key scanT
  else some (litKeyHit cs key scanT)

/-- Whether any key of the list matches; `none` as soon as one pattern
fails to compile (the entry is then skipped). -/
def anyKeyHit? (rm : RegexOracle) (useRegex cs : Bool) (scanT : Text)
    (keys : List Text) : Option Bool :=
  keys.foldr
    (fun k acc =>
      match keyHit? rm useRegex cs scanT k, acc with
      | some a, some b => some (a || b)
      | _, _ => none)
    (some false)

/-- The last `n` elements of a list (the `n` most recent messages). -/
def lastN (n : Nat) (l : List α) : List α := l.drop (l.length - n)

/-- Modelled from the spec: the scan text seen by one entry — the full
context scan text, unless a scan-depth decorator restricts it to the `n`
most recent messages. -/
def entryScanText (ctx : LorebookContext) (dec : ParsedDecorators) : Text :=
  match dec.scan_depth with
  | some n => joinSpace ((lastN n ctx.messages).map Message.content)
  | none => ctx.scanText

/-- Modelled from the spec: the conjunction of the activation conditions of
spec section 4.2 — enabled, not force-deactivated, activated (constant or
forced or key hit), not vetoed by exclude keys, and within the
activate-after / activate-every windows. -/
def entryGate (ctx : LorebookContext) (e : LorebookEntry)
    (dec : ParsedDecorators) (keyOk exclHit : Bool) : Bool :=
  e.enabled && !dec.dont_activate
    && ((e.constant == some true) || dec.activate || keyOk)
    && !exclHit
    && (match dec.activate_only_after with
        | some n => decide (n ≤ ctx.assistantMessageCount)
        | none => true)
    && (match dec.activate_only_every with
        | some n =>
          decide ((ctx.assistantMessageCount % n = 0 ∧ 0 < ctx.assistantMessageCount)
            ∨ ctx.assistantMessageCount = n)
        | none => true)

/-- Modelled from the spec: evaluate one entry against the context once its
decorators are parsed (spec section 4.2's activation rules). -/
def evalEntryCore (rm : RegexOracle) (ctx : LorebookContext)
    (e : LorebookEntry) (dec : ParsedDecorators) (clean : Text) :
    Option MatchedEntry :=
  match anyKeyHit? rm e.use_regex (e.case_sensitive.getD false)
          (entryScanText ctx dec) (e.keys ++ dec.additional_keys.flatten),
        anyKeyHit? rm e.use_regex (e.case_sensitive.getD false)
          (entryScanText ctx dec) dec.exclude_keys.flatten with
  | some keyOk, some exclHit =>
    if entryGate ctx e dec keyOk exclHit then some ⟨e, dec, clean⟩ else none
  | _, _ => none

/-- Modelled from the spec: one entry's full evaluation. -/
def evalEntry (rm : RegexOracle) (ctx : LorebookContext) (e : LorebookEntry) :
    Option MatchedEntry :=
  let pd := parseDecorators e.content
  evalEntryCore rm ctx e pd.1 pd.2

/-- Priority of a matched entry; a missing priority counts as 0. -/
def matchPriority (m : MatchedEntry) : Int := m.entry.priority.getD 0

/-- The output order of the matcher: strictly higher priority first, ties
by ascending insertion order. -/
def entryLE (a b : MatchedEntry) : Prop :=
  matchPriority b < matchPriority a ∨
    (matchPriority a = matchPriority b ∧ a.entry.insertion_order ≤ b.entry.insertion_order)

instance : DecidableRel entryLE := fun a b => by
  unfold entryLE; exact inferInstance

instance : IsTotal MatchedEntry entryLE :=
  ⟨fun a b => by unfold entryLE; omega⟩

instance : IsTrans MatchedEntry entryLE :=
  ⟨fun a b c hab hbc => by
    unfold entryLE at hab hbc ⊢; omega⟩

/-- Modelled from the spec: sort matched entries by priority descending,
then insertion order ascending (stable). -/
def sortEntries (l : List MatchedEntry) : List MatchedEntry :=
  List.insertionSort entryLE l

/-- Modelled from the spec: `LorebookEngine.findMatches`. -/
def findMatches (rm : RegexOracle) (lb : Lorebook) (ctx : LorebookContext) :
    List MatchedEntry :=
  sortEntries (lb.entries.filterMap (evalEntry rm ctx))

/-! ## Template renderer, from `src/src/services/template-renderer.ts`.

The Jinja engine (`@huggingface/jinja`) is an external library: a compiled
template is embedded as a function from the render variables to a result
(`Except` error = the evaluation threw), and template compilation enters as
a parameter.  The registry is the `Map` of the renderer, keyed by name. -/

/-- The failure modes of the renderer and the prompt builder, one
constructor per distinct thrown `Error` of the sources. -/
inductive PromptError where
  | invalidArgs
  | templateNotFound (name : Text)
  | renderFailed (name : Text) (cause : Text)
  | registrationFailed (name : Text) (cause : Text)
deriving DecidableEq

/-- The context handed to `render` (`TemplateContext`). -/
structure TemplateContext where
  character : CharacterCardData
  messages : List Message
  userName : Text
  lorebookEntries : List MatchedEntry
  systemPrompt : Option Text := none
deriving DecidableEq

/-- The variable record a template sees (`templateVars` in `render`). -/
structure TemplateVars where
  character : CharacterCardData
  messages : List Message
  user_name : Text
  lorebook_entries : List MatchedEntry
  system_prompt : Text

/-- A compiled template: evaluation either yields text or throws. -/
abbrev Template := TemplateVars → Except Text Text

/-- The renderer's registry (`Map<string, Template>`). -/
abbrev RendererState := List (Text × Template)

/-- `Map.get` on the registry. -/
def lookupTemplate (name : Text) : RendererState → Option Template
  | [] => none
  | (k, t) :: rest => if k == name then some t else lookupTemplate name rest

/-- `Map.set` on the registry: replace in place, else append. -/
def setTemplate (name : Text) (t : Template) : RendererState → RendererState
  | [] => [(name, t)]
  | (k, v) :: rest =>
    if k == name then (name, t) :: rest else (k, v) :: setTemplate name t rest

/-- Build the variable record of `render`, with the system-prompt fallback
`context.systemPrompt || character.system_prompt || ''`. -/
def mkTemplateVars (ctx : TemplateContext) : TemplateVars :=
  { character := ctx.character
    messages := ctx.messages
    user_name := ctx.userName
    lorebook_entries := ctx.lorebookEntries
    system_prompt :=
      let a := ctx.systemPrompt.getD []
      if a.isEmpty then ctx.character.system_prompt else a }

/-- `TemplateRenderer.render`: unknown names fail with a template-not-found
condition; a throwing evaluation is re-wrapped with the template name and
the underlying cause. -/
def render (st : RendererState) (name : Text) (ctx : TemplateContext) :
    Except PromptError Text :=
  match lookupTemplate name st with
  | none => .error (.templateNotFound name)
  | some t =>
    match t (mkTemplateVars ctx) with
    | .ok s => .ok s
    | .error c => .error (.renderFailed name c)

/-- The external `new Template(source)` constructor, as a parameter:
`Except` error = the source failed to parse. -/
abbrev TemplateCompiler := Text → Except Text Template

/-- `TemplateRenderer.registerTemplate`: compile and store under the name,
re-wrapping a parse failure. -/
def registerTemplate (compile : TemplateCompiler) (name src : Text)
    (st : RendererState) : Except PromptError RendererState :=
  match compile src with
  | .ok t => .ok (setTemplate name t st)
  | .error c => .error (.registrationFailed name c)

/-- The default-template setup of the renderer's constructor
(`initializeDefaultTemplates`): the ChatML source is registered under both
`chatml` and `default`, then the Alpaca and Llama sources under their
names.  The three literal Jinja sources are data of the external engine
and enter as parameters. -/
def registerDefaultTemplates (compile : TemplateCompiler)
    (chatMLTemplate alpacaTemplate llamaTemplate : Text) (st : RendererState) :
    Except PromptError RendererState := do
  let st1 ← registerTemplate compile ("chatml".toList) chatMLTemplate st
  let st2 ← registerTemplate compile ("default".toList) chatMLTemplate st1
  let st3 ← registerTemplate compile ("alpaca".toList) alpacaTemplate st2
  registerTemplate compile ("llama".toList) llamaTemplate st3

/-! ## Prompt builder, from `src/src/services/prompt-builder.ts`. -/

/-- The cacheable static context (`CompiledContext`). -/
structure CompiledContext where
  characterName : Text
  characterNickname : Option Text := none
  systemPrompt : Option Text := none
  description : Text
  personality : Option Text := none
  scenario : Option Text := none
  greeting : Text
  constantLorebookEntries : List MatchedEntry
deriving DecidableEq

/-- Options of `buildPrompt` (`PromptBuildOptions`). -/
structure PromptBuildOptions where
  compiledContext : Option CompiledContext := none
  characterCard : Option CharacterCardV3 := none
  messages : List Message
  userPrompt : Text
  userName : Option Text := none
  templateName : Option Text := none
  conversationId : Option Text := none

/-- `getGreeting`: index 0 or unset selects the primary greeting, index
`i > 0` the alternate `i-1`, out-of-range indices fall back to primary. -/
def getGreeting (data : CharacterCardData) (index : Option Int) : Text :=
  match index with
  | none => data.first_mes
  | some i =>
    if i = 0 then data.first_mes
    else
      let ai := i - 1
      if 0 ≤ ai ∧ ai < data.alternate_greetings.length then
        data.alternate_greetings.getD ai.toNat []
      else data.first_mes

/-- Macro-process the contents of a matched-entry list, appending to an
accumulator while threading the random stream counter (the shape of the
per-match loops of `compileStaticContext` and `processDynamicContent`). -/
def processedAppendFold (rand : Nat → Nat) (cbsCtx : CBSContext)
    (ms : List MatchedEntry) (acc : List MatchedEntry × Nat) :
    List MatchedEntry × Nat :=
  ms.foldl
    (fun acc2 m =>
      let t := processS rand acc2.2 m.processedContent cbsCtx
      (acc2.1 ++ [{ m with processedContent := t.1 }], t.2))
    acc

/-- One step of the constant-entry loop of `compileStaticContext`: an
enabled constant entry is evaluated alone against an empty scan context
with an assistant-message count of 0, and the surviving matches get their
content macro-processed. -/
def constantEntryStep (rand : Nat → Nat) (rm : RegexOracle)
    (data : CharacterCardData) (cbsCtx : CBSContext)
    (acc : List MatchedEntry × Nat) (entry : LorebookEntry) :
    List MatchedEntry × Nat :=
  if entry.enabled && (entry.constant == some true) then
    processedAppendFold rand cbsCtx
      (findMatches rm ⟨[entry]⟩ ⟨[], data, [], 0⟩) acc
  else acc

/-- The constant-entry loop of `compileStaticContext`: each enabled
constant entry runs through `constantEntryStep` in order. -/
def constantEntriesS (rand : Nat → Nat) (rm : RegexOracle)
    (data : CharacterCardData) (cbsCtx : CBSContext) (ctr : Nat) :
    List MatchedEntry × Nat :=
  match data.character_book with
  | none => ([], ctr)
  | some book =>
    book.entries.foldl (constantEntryStep rand rm data cbsCtx) ([], ctr)

/-- The resolved display name: nickname if set and non-empty (JavaScript
`data.nickname || data.name`), else the name. -/
def resolvedName (data : CharacterCardData) : Text :=
  match data.nickname with
  | some n => if n.isEmpty then data.name else n
  | none => data.name

/-- `PromptBuilder.compileStaticContext`, threading the random stream
counter through every macro-processing call in source order. -/
def compileStaticContextS (rand : Nat → Nat) (rm : RegexOracle)
    (card : CharacterCardV3) (userName : Text) (greetingIndex : Option Int)
    (ctr : Nat) : CompiledContext × Nat :=
  let data := card.data
  let characterName := resolvedName data
  let greeting := getGreeting data greetingIndex
  let cbsCtx : CBSContext := ⟨characterName, userName, none⟩
  let descC := processS rand ctr data.description cbsCtx
  let persC :=
    if data.personality.isEmpty then ((none : Option Text), descC.2)
    else
      let t := processS rand descC.2 data.personality cbsCtx
      (some t.1, t.2)
  let scenC :=
    if data.scenario.isEmpty then ((none : Option Text), persC.2)
    else
      let t := processS rand persC.2 data.scenario cbsCtx
      (some t.1, t.2)
  let sysC :=
    if data.system_prompt.isEmpty then ((none : Option Text), scenC.2)
    else
      let t := processS rand scenC.2 data.system_prompt cbsCtx
      (some t.1, t.2)
  let greetC := processS rand sysC.2 greeting cbsCtx
  let entriesC := constantEntriesS rand rm data cbsCtx greetC.2
  ({ characterName := characterName
     characterNickname := data.nickname
     systemPrompt := sysC.1
     description := descC.1
     personality := persC.1
     scenario := scenC.1
     greeting := greetC.1
     constantLorebookEntries := entriesC.1 }, entriesC.2)

/-- The scan text of `processDynamicContent` before hidden keys: the
processed messages' contents joined with spaces, a space, then the user
prompt it was handed (the processed one, in `buildPrompt`). -/
def scanTextBase (messages : List Message) (userPrompt : Text) : Text :=
  joinSpace (messages.map Message.content) ++ [' '] ++ userPrompt

/-- The final scan text: the base text, a space, and the hidden keys
extracted from the base text joined with spaces (skipped without a macro
context). -/
def scanTextFull (messages : List Message) (userPrompt : Text)
    (withHidden : Bool) : Text :=
  let s := scanTextBase messages userPrompt
  let hk := if withHidden then extractHiddenKeys s else []
  s ++ [' '] ++ joinSpace hk

/-- The reconstructed card handed to the matcher's context, built from the
compiled context's fields with empty-string defaults. -/
def reconstructedCard (cc : Option CompiledContext) : CharacterCardData :=
  { name := (cc.map CompiledContext.characterName).getD []
    description := (cc.map CompiledContext.description).getD []
    first_mes := (cc.map CompiledContext.greeting).getD []
    system_prompt := (cc.bind CompiledContext.systemPrompt).getD []
    personality := (cc.bind CompiledContext.personality).getD []
    scenario := (cc.bind CompiledContext.scenario).getD []
    character_version := "1.0".toList }

/-- `PromptBuilder.processDynamicContent`: build the scan text, count the
assistant messages, run the matcher over the non-constant entries, then
macro-process the matches' contents. -/
def processDynamicContentS (rand : Nat → Nat) (rm : RegexOracle)
    (messages : List Message) (userPrompt : Text) (lorebook : Option Lorebook)
    (cc : Option CompiledContext) (cbs : Option CBSContext) (ctr : Nat) :
    List MatchedEntry × Nat :=
  match lorebook with
  | none => ([], ctr)
  | some lb =>
    let scanT := scanTextFull messages userPrompt cbs.isSome
    let count := (messages.filter (fun m => m.role == Role.assistant)).length
    let lctx : LorebookContext := ⟨messages, reconstructedCard cc, scanT, count⟩
    let nonConstant : Lorebook :=
      { lb with entries := lb.entries.filter (fun e => !(e.constant == some true)) }
    let ms := findMatches rm nonConstant lctx
    match cbs with
    | some c => processedAppendFold rand c ms ([], ctr)
    | none => (ms, ctr)

/-- Steps 1-6 of `buildPrompt` once a static context is in hand: process
the user prompt and the history, append the prompt as a trailing user
message, match the dynamic entries, merge them after the constant entries
and assemble the render context. -/
def buildPromptSteps (rand : Nat → Nat) (rm : RegexOracle) (now : Text)
    (opts : PromptBuildOptions) (context : CompiledContext) (ctr : Nat) :
    TemplateContext :=
  let userName := opts.userName.getD ("User".toList)
  let cbsCtx : CBSContext := ⟨context.characterName, userName, opts.conversationId⟩
  let pUPC := processS rand ctr opts.userPrompt cbsCtx
  let pMsgsC :=
    opts.messages.foldl
      (fun acc msg =>
        let t := processS rand acc.2 msg.content cbsCtx
        (acc.1 ++ [{ msg with content := t.1 }], t.2))
      (([] : List Message), pUPC.2)
  let allMessages :=
    pMsgsC.1 ++ [⟨"current".toList, opts.conversationId.getD [], Role.user, pUPC.1, now⟩]
  let dyn :=
    (processDynamicContentS rand rm allMessages pUPC.1
      (opts.characterCard.bind (fun c => c.data.character_book))
      (some context) (some cbsCtx) pMsgsC.2).1
  let allEntries := context.constantLorebookEntries ++ dyn
  let characterData :=
    match opts.characterCard with
    | some c => c.data
    | none =>
      { name := context.characterName
        description := context.description
        personality := context.personality.getD []
        scenario := context.scenario.getD []
        system_prompt := context.systemPrompt.getD []
        first_mes := context.greeting
        character_version := "1.0".toList }
  { character := characterData
    messages := allMessages
    userName := userName
    lorebookEntries := allEntries
    systemPrompt := context.systemPrompt }

/-- The render context `buildPrompt` assembles, or `none` exactly when
neither a compiled context nor a character card is supplied (the
invalid-arguments condition); a persona alone triggers the internal
`compileStaticContext` fallback. -/
def buildPromptContext (rand : Nat → Nat) (rm : RegexOracle) (now : Text)
    (opts : PromptBuildOptions) : Option TemplateContext :=
  match opts.compiledContext, opts.characterCard with
  | none, none => none
  | some c, _ => some (buildPromptSteps rand rm now opts c 0)
  | none, some card =>
    let cc :=
      compileStaticContextS rand rm card (opts.userName.getD ("User".toList)) none 0
    some (buildPromptSteps rand rm now opts cc.1 cc.2)

/-- `PromptBuilder.buildPrompt`: validate the arguments, assemble the
render context and render with the requested template (default
`default`). -/
def buildPrompt (rand : Nat → Nat) (rm : RegexOracle) (now : Text)
    (st : RendererState) (opts : PromptBuildOptions) : Except PromptError Text :=
  match buildPromptContext rand rm now opts with
  | none => .error .invalidArgs
  | some tc => render st (opts.templateName.getD ("default".toList)) tc

/-! ## Named pipeline stages and concrete fixtures used by the theorems. -/

/-- The text after the four deterministic leading passes of `process`
(hidden keys, comments, char, user). -/
def cbsStage4 (text : Text) (ctx : CBSContext) : Text :=
  replaceUser (replaceChar (removeComments (removeHiddenKeys text)) ctx.charName)
    ctx.userName

/-- The text after the pick pass, assuming the random pass found no match
(so the random pass was the identity). -/
def cbsStage6 (text : Text) (ctx : CBSContext) : Text :=
  replacePick (cbsStage4 text ctx) (ctx.conversationId.getD [])

/-- A constant random stream, for concrete evaluations. -/
def randZero : Nat → Nat := fun _ => 0

/-- A second, different random stream. -/
def randShift : Nat → Nat := fun i => i + 7

/-- A regex oracle whose every pattern compiles and never matches. -/
def rmNever : RegexOracle := fun _ _ _ => some false

/-- A minimal persona. -/
def plainCard : CharacterCardV3 :=
  ⟨{ name := "Alice".toList
     description := "A helpful assistant".toList
     first_mes := "Hello!".toList }⟩

/-- A render context over the minimal persona. -/
def sampleTemplateContext : TemplateContext :=
  { character := plainCard.data
    messages := []
    userName := "Bob".toList
    lorebookEntries := [] }

/-- A template whose evaluation yields a fixed text. -/
def okTemplate (s : Text) : Template := fun _ => .ok s

/-- A template whose evaluation throws with a fixed cause. -/
def failTemplate (c : Text) : Template := fun _ => .error c

/-- A compiler that always succeeds, compiling a source to the template
that echoes it. -/
def echoCompile : TemplateCompiler := fun s => .ok (okTemplate s)

/-- A registry holding one throwing template. -/
def boomState : RendererState := [("boom".toList, failTemplate ("kaput".toList))]

/-- A registry shaped like the default-initialized one. -/
def defaultState : RendererState :=
  [("chatml".toList, okTemplate ("CHATML".toList)),
   ("default".toList, okTemplate ("CHATML".toList)),
   ("alpaca".toList, okTemplate ("ALPACA".toList)),
   ("llama".toList, okTemplate ("LLAMA".toList))]

/-- The persona of the spec's scenario: Aria, nicknamed Ari. -/
def ariaCard : CharacterCardV3 :=
  ⟨{ name := "Aria".toList
     nickname := some ("Ari".toList)
     description := "{{char}} helps {{user}}".toList
     first_mes := "Hi {{user}}!".toList }⟩

/-- The same persona with a present-but-empty nickname. -/
def ariaBlankNickCard : CharacterCardV3 :=
  ⟨{ name := "Aria".toList
     nickname := some []
     description := "{{char}} helps {{user}}".toList
     first_mes := "Hi {{user}}!".toList }⟩

/-- A disabled entry that is both constant and force-activated. -/
def disabledActivateEntry : LorebookEntry :=
  { keys := ["test".toList]
    content := "@@activate
Test content".toList
    enabled := false
    insertion_order := 0
    use_regex := false
    constant := some true }

/-- A scan context whose text contains the disabled entry's key. -/
def sampleScanCtx : LorebookContext :=
  ⟨[], plainCard.data, "This contains test keyword".toList, 0⟩

/-- A persona with one enabled constant entry. -/
def constCard : CharacterCardV3 :=
  ⟨{ name := "Alice".toList
     description := "A helpful assistant".toList
     first_mes := "Hello!".toList
     character_book := some ⟨[{ keys := ["test".toList]
                                content := "Constant information".toList
                                enabled := true
                                insertion_order := 0
                                use_regex := false
                                constant := some true }]⟩ }⟩

/-- A lorebook entry keyed on `dragon`. -/
def dragonEntry : LorebookEntry :=
  { keys := ["dragon".toList]
    content := "Dragons are ancient.".toList
    enabled := true
    insertion_order := 0
    use_regex := false }

/-- A persona whose book holds the dragon entry. -/
def dragonCard : CharacterCardV3 :=
  ⟨{ name := "Alice".toList
     description := "A helpful assistant".toList
     first_mes := "Hello!".toList
     character_book := some ⟨[dragonEntry]⟩ }⟩

/-- A history message carrying a hidden-key marker naming `dragon`. -/
def hiddenMsg : Message :=
  ⟨"1".toList, "c1".toList, Role.user,
   "I saw a {{hidden_key:dragon}} today".toList, []⟩

/-- The macro context the pipeline builds for the dragon persona. -/
def c1CbsCtx : CBSContext := ⟨"Alice".toList, "Bob".toList, none⟩

/-- Build options: dragon persona, hidden-key history, prompt `hello`. -/
def c1Opts : PromptBuildOptions :=
  { characterCard := some dragonCard
    messages := [hiddenMsg]
    userPrompt := "hello".toList
    userName := some ("Bob".toList) }

/-- The hidden-key message after macro processing (marker stripped). -/
def c1ProcMsg : Message := { hiddenMsg with content := "I saw a  today".toList }

/-- The trailing user message the pipeline appends for `c1Opts`. -/
def c1CurrentMsg : Message :=
  ⟨"current".toList, [], Role.user, "hello".toList, []⟩

/-- Build options with a char-reference macro as the user prompt. -/
def c1OptsChar : PromptBuildOptions :=
  { characterCard := some plainCard
    messages := []
    userPrompt := "{{char}}".toList }

/-- A constant entry gated on `activate_only_after 2`. -/
def secretEntry : LorebookEntry :=
  { keys := ["secret".toList]
    content := "@@activate_only_after 2
The hidden truth.".toList
    enabled := true
    insertion_order := 0
    use_regex := false
    constant := some true }

/-- A persona whose book holds the gated constant entry. -/
def secretCard : CharacterCardV3 :=
  ⟨{ name := "Alice".toList
     description := "D".toList
     first_mes := "Hello!".toList
     character_book := some ⟨[secretEntry]⟩ }⟩

/-- Build options over the gated persona (fallback compilation path). -/
def c9Opts : PromptBuildOptions :=
  { characterCard := some secretCard
    messages := []
    userPrompt := "tell me the secret".toList }

/-- The render context `buildPrompt` assembles for `c9Opts`. -/
def c9Tc : TemplateContext :=
  buildPromptSteps randZero rmNever [] c9Opts
    (compileStaticContextS randZero rmNever secretCard ("User".toList) none 0).1
    (compileStaticContextS randZero rmNever secretCard ("User".toList) none 0).2

/-- Build options with neither a compiled context nor a persona. -/
def noArgOpts : PromptBuildOptions :=
  { messages := [], userPrompt := "Hello".toList }

/-- Build options with only a persona. -/
def cardOpts : PromptBuildOptions :=
  { characterCard := some plainCard, messages := [], userPrompt := "Hi".toList }

/-! ## Scanner lemmas. -/

theorem leadsWith_append (p r : Text) : leadsWith p (p ++ r) = true := by
  induction p with
  | nil => rfl
  | cons c cs ih => simp [leadsWith, ih]

theorem takeWhile_append_all {p : Char → Bool} {l₁ : Text} (l₂ : Text)
    (h : ∀ a ∈ l₁, p a = true) :
    (l₁ ++ l₂).takeWhile p = l₁ ++ l₂.takeWhile p := by
  induction l₁ with
  | nil => simp
  | cons c cs ih =>
    simp only [List.cons_append, List.takeWhile_cons]
    rw [h c (by simp)]
    simp [ih (fun a ha => h a (by simp [ha]))]

theorem scanGo_nil (op : Text) (ae : Bool) (mk : Text → Text) (fuel : Nat) :
    scanGo op ae mk fuel [] = [] := by
  cases fuel <;> rfl

theorem scanGo_exact (op : Text) (ae : Bool) (mk : Text → Text)
    (inner : Text) (c : Char) (ops : Text)
    (hin : ae = true ∨ inner ≠ [])
    (hnb : ∀ ch ∈ inner, ch ≠ '\x7d') (fuel : Nat)
    (hop : op = c :: ops) :
    scanGo op ae mk (fuel + 1) (op ++ (inner ++ close2)) = mk inner := by
  subst hop
  have htw : (inner ++ close2).takeWhile (fun ch => ch != '\x7d') = inner := by
    rw [takeWhile_append_all close2
      (fun a ha => by simpa using hnb a ha)]
    simp [close2]
  have hguard : (ae || !inner.isEmpty) = true := by
    rcases hin with h | h
    · simp [h]
    · simp [List.isEmpty_iff, h]
  have hcl : leadsWith close2 close2 = true := by decide
  simp only [List.cons_append]
  rw [scanGo]
  simp only [← List.cons_append, List.drop_left, htw, List.drop_left,
    leadsWith_append, hguard, hcl, Bool.and_self, Bool.and_true, Bool.true_and,
    if_true]
  simp [show close2.drop 2 = ([] : Text) from rfl, scanGo_nil]

theorem scanReplace_exact (op : Text) (ae : Bool) (mk : Text → Text)
    (inner : Text) (hop : op ≠ [])
    (hin : ae = true ∨ inner ≠ [])
    (hnb : ∀ ch ∈ inner, ch ≠ '\x7d') :
    scanReplace op ae mk (op ++ inner ++ close2) = mk inner := by
  obtain ⟨c, ops, rfl⟩ := List.exists_cons_of_ne_nil hop
  rw [List.append_assoc]
  show scanGo _ _ _ ((c :: ops) ++ (inner ++ close2)).length _ = _
  rw [show ((c :: ops) ++ (inner ++ close2)).length
      = (ops.length + (inner ++ close2).length) + 1 from by
    simp [List.length_append]]
  exact scanGo_exact _ ae mk inner c ops hin hnb _ rfl

theorem scanGo_id (op : Text) (ae : Bool) (mk : Text → Text) :
    ∀ (fuel : Nat) (l : Text), hasMatchGo op ae fuel l = false →
      scanGo op ae mk fuel l = l := by
  intro fuel
  induction fuel with
  | zero => intro l _; rfl
  | succ n ih =>
    intro l h
    cases l with
    | nil => rfl
    | cons c rest =>
      rw [hasMatchGo] at h
      rw [scanGo]
      split at h
      next hc => exact absurd h (by simp)
      next hc => rw [if_neg hc, ih rest h]

theorem scanGoS_id (op : Text) (ae : Bool) (mkS : Text → Nat → Text × Nat) :
    ∀ (fuel : Nat) (ctr : Nat) (l : Text), hasMatchGo op ae fuel l = false →
      scanGoS op ae mkS fuel ctr l = (l, ctr) := by
  intro fuel
  induction fuel with
  | zero => intro ctr l _; rfl
  | succ n ih =>
    intro ctr l h
    cases l with
    | nil => rfl
    | cons c rest =>
      rw [hasMatchGo] at h
      rw [scanGoS]
      split at h
      next hc => exact absurd h (by simp)
      next hc => rw [if_neg hc, ih ctr rest h]

theorem rollGoS_id (rand : Nat → Nat) :
    ∀ (fuel : Nat) (ctr : Nat) (l : Text), hasRollGo fuel l = false →
      rollGoS rand fuel ctr l = (l, ctr) := by
  intro fuel
  induction fuel with
  | zero => intro ctr l _; rfl
  | succ n ih =>
    intro ctr l h
    cases l with
    | nil => rfl
    | cons c rest =>
      rw [hasRollGo] at h
      rw [rollGoS]
      rcases hm : rollMatchAt (c :: rest) with _ | m
      · rw [hm] at h
        simp only [Option.isSome_none, Bool.false_or] at h
        rw [ih ctr rest h]
      · rw [hm] at h
        simp at h

theorem replaceRandomS_id (rand : Nat → Nat) (ctr : Nat) (t : Text)
    (h : hasCBSMatch randomOpen false t = false) :
    replaceRandomS rand ctr t = (t, ctr) :=
  scanGoS_id _ _ _ _ _ _ h

theorem replaceRollS_id (rand : Nat → Nat) (ctr : Nat) (t : Text)
    (h : hasRollMatch t = false) :
    replaceRollS rand ctr t = (t, ctr) :=
  rollGoS_id _ _ _ _ h

/-! ## Knowledge-matcher lemmas. -/

theorem entryGate_facts {ctx : LorebookContext} {e : LorebookEntry}
    {dec : ParsedDecorators} {keyOk exclHit : Bool}
    (h : entryGate ctx e dec keyOk exclHit = true) :
    e.enabled = true ∧
      ∀ n, dec.activate_only_after = some n → n ≤ ctx.assistantMessageCount := by
  unfold entryGate at h
  simp only [Bool.and_eq_true] at h
  refine ⟨h.1.1.1.1.1, fun n hn => ?_⟩
  have := h.1.2
  rw [hn] at this
  exact of_decide_eq_true this

theorem evalEntryCore_some {rm : RegexOracle} {ctx : LorebookContext}
    {e : LorebookEntry} {dec : ParsedDecorators} {clean : Text} {m : MatchedEntry}
    (h : evalEntryCore rm ctx e dec clean = some m) :
    m.entry = e ∧ e.enabled = true ∧
      ∀ n, dec.activate_only_after = some n → n ≤ ctx.assistantMessageCount := by
  unfold evalEntryCore at h
  rcases hK : anyKeyHit? rm e.use_regex (e.case_sensitive.getD false)
      (entryScanText ctx dec) (e.keys ++ dec.additional_keys.flatten) with _ | keyOk <;>
    rw [hK] at h
  · simp at h
  · rcases hE : anyKeyHit? rm e.use_regex (e.case_sensitive.getD false)
        (entryScanText ctx dec) dec.exclude_keys.flatten with _ | exclHit <;>
      rw [hE] at h
    · simp at h
    · dsimp only at h
      split at h
      next hg =>
        obtain rfl : (⟨e, dec, clean⟩ : MatchedEntry) = m := Option.some.inj h
        exact ⟨rfl, entryGate_facts hg⟩
      next => exact absurd h (by simp)

theorem evalEntry_some {rm : RegexOracle} {ctx : LorebookContext}
    {e : LorebookEntry} {m : MatchedEntry} (h : evalEntry rm ctx e = some m) :
    m.entry = e ∧ e.enabled = true ∧
      ∀ n, (parseDecorators e.content).1.activate_only_after = some n →
        n ≤ ctx.assistantMessageCount :=
  evalEntryCore_some h

theorem mem_findMatches {rm : RegexOracle} {lb : Lorebook}
    {ctx : LorebookContext} {m : MatchedEntry} (h : m ∈ findMatches rm lb ctx) :
    ∃ e ∈ lb.entries, evalEntry rm ctx e = some m := by
  unfold findMatches sortEntries at h
  rw [List.mem_insertionSort] at h
  exact List.mem_filterMap.mp h

theorem findMatches_entry_mem {rm : RegexOracle} {lb : Lorebook}
    {ctx : LorebookContext} {m : MatchedEntry} (h : m ∈ findMatches rm lb ctx) :
    m.entry ∈ lb.entries := by
  obtain ⟨e, he, hev⟩ := mem_findMatches h
  rw [(evalEntry_some hev).1]
  exact he

theorem processedAppendFold_mem (rand : Nat → Nat) (cbsCtx : CBSContext) :
    ∀ (ms : List MatchedEntry) (acc : List MatchedEntry × Nat) (x : MatchedEntry),
      x ∈ (processedAppendFold rand cbsCtx ms acc).1 →
      x ∈ acc.1 ∨ ∃ m ∈ ms, x.entry = m.entry := by
  intro ms
  induction ms with
  | nil => intro acc x hx; exact Or.inl hx
  | cons m ms ih =>
    intro acc x hx
    have hx' : x ∈ (processedAppendFold rand cbsCtx ms
        (acc.1 ++ [{ m with
            processedContent := (processS rand acc.2 m.processedContent cbsCtx).1 }],
          (processS rand acc.2 m.processedContent cbsCtx).2)).1 := by
      simpa [processedAppendFold, List.foldl_cons] using hx
    rcases ih _ x hx' with hmem | ⟨m', hm', he⟩
    · rcases List.mem_append.mp hmem with h1 | h2
      · exact Or.inl h1
      · simp only [List.mem_singleton] at h2
        subst h2
        exact Or.inr ⟨m, by simp, rfl⟩
    · exact Or.inr ⟨m', by simp [hm'], he⟩

theorem constFold_mem (rand : Nat → Nat) (rm : RegexOracle)
    (data : CharacterCardData) (cbsCtx : CBSContext) :
    ∀ (es : List LorebookEntry) (acc : List MatchedEntry × Nat) (x : MatchedEntry),
      x ∈ (es.foldl (constantEntryStep rand rm data cbsCtx) acc).1 →
      x ∈ acc.1 ∨ ∃ e ∈ es, e.enabled = true ∧ e.constant = some true ∧
        ∃ m ∈ findMatches rm ⟨[e]⟩ ⟨[], data, [], 0⟩, x.entry = m.entry := by
  intro es
  induction es with
  | nil => intro acc x hx; exact Or.inl hx
  | cons e es ih =>
    intro acc x hx
    rw [List.foldl_cons] at hx
    rcases ih _ x hx with hmem | ⟨e', he', h1, h2, h3⟩
    · unfold constantEntryStep at hmem
      split at hmem
      next hcond =>
        rcases processedAppendFold_mem _ _ _ _ _ hmem with h1 | ⟨m, hm, he⟩
        · exact Or.inl h1
        · simp only [Bool.and_eq_true, beq_iff_eq] at hcond
          exact Or.inr ⟨e, by simp, hcond.1, hcond.2, m, hm, he⟩
      next => exact Or.inl hmem
    · exact Or.inr ⟨e', by simp [he'], h1, h2, h3⟩

theorem constantEntriesS_mem {rand : Nat → Nat} {rm : RegexOracle}
    {data : CharacterCardData} {cbsCtx : CBSContext} {ctr : Nat} {x : MatchedEntry}
    (hx : x ∈ (constantEntriesS rand rm data cbsCtx ctr).1) :
    ∃ book, data.character_book = some book ∧ ∃ e ∈ book.entries,
      e.enabled = true ∧ e.constant = some true ∧
      ∃ m ∈ findMatches rm ⟨[e]⟩ ⟨[], data, [], 0⟩, x.entry = m.entry := by
  unfold constantEntriesS at hx
  split at hx
  next => simp at hx
  next book hbook =>
    rcases constFold_mem rand rm data cbsCtx book.entries ([], ctr) x hx with h | h
    · simp at h
    · exact ⟨book, hbook, h⟩

theorem entryGate_false_of_after {ctx : LorebookContext} {e : LorebookEntry}
    {dec : ParsedDecorators} {keyOk exclHit : Bool} {n : Nat}
    (hdec : dec.activate_only_after = some n)
    (hlt : ctx.assistantMessageCount < n) :
    entryGate ctx e dec keyOk exclHit = false := by
  unfold entryGate
  have h1 : decide (n ≤ ctx.assistantMessageCount) = false :=
    decide_eq_false (by omega)
  simp [hdec, h1]

theorem evalEntryCore_none_of_after {rm : RegexOracle} {ctx : LorebookContext}
    {e : LorebookEntry} {dec : ParsedDecorators} {clean : Text} {n : Nat}
    (hdec : dec.activate_only_after = some n)
    (hlt : ctx.assistantMessageCount < n) :
    evalEntryCore rm ctx e dec clean = none := by
  unfold evalEntryCore
  rcases anyKeyHit? rm e.use_regex (e.case_sensitive.getD false)
      (entryScanText ctx dec) (e.keys ++ dec.additional_keys.flatten) with _ | keyOk
  · rfl
  · rcases anyKeyHit? rm e.use_regex (e.case_sensitive.getD false)
        (entryScanText ctx dec) dec.exclude_keys.flatten with _ | exclHit
    · rfl
    · dsimp only
      rw [if_neg]
      rw [entryGate_false_of_after hdec hlt]
      simp

theorem evalEntry_none_of_after {rm : RegexOracle} {ctx : LorebookContext}
    {e : LorebookEntry} {n : Nat}
    (hdec : (parseDecorators e.content).1.activate_only_after = some n)
    (hlt : ctx.assistantMessageCount < n) :
    evalEntry rm ctx e = none :=
  evalEntryCore_none_of_after hdec hlt

theorem findMatches_single_none {rm : RegexOracle} {ctx : LorebookContext}
    {e : LorebookEntry} (h : evalEntry rm ctx e = none) :
    findMatches rm ⟨[e]⟩ ctx = [] := by
  unfold findMatches sortEntries
  simp [h]

theorem processDynamicContentS_entry {rand : Nat → Nat} {rm : RegexOracle}
    {msgs : List Message} {up : Text} {lb : Option Lorebook}
    {cc : Option CompiledContext} {cbs : Option CBSContext} {ctr : Nat}
    {x : MatchedEntry}
    (h : x ∈ (processDynamicContentS rand rm msgs up lb cc cbs ctr).1) :
    ∃ lb0, lb = some lb0 ∧
      x.entry ∈ lb0.entries.filter (fun e => !(e.constant == some true)) := by
  cases lb with
  | none => simp [processDynamicContentS] at h
  | some lb0 =>
    refine ⟨lb0, rfl, ?_⟩
    cases cbs with
    | none =>
      simp only [processDynamicContentS] at h
      exact findMatches_entry_mem h
    | some c =>
      simp only [processDynamicContentS] at h
      rcases processedAppendFold_mem _ _ _ _ _ h with h1 | ⟨m, hm, he⟩
      · simp at h1
      · rw [he]
        exact findMatches_entry_mem hm


/-! ## Renderer lemmas. -/

theorem lookupTemplate_set_self (name : Text) (t : Template) (st : RendererState) :
    lookupTemplate name (setTemplate name t st) = some t := by
  induction st with
  | nil => simp [setTemplate, lookupTemplate]
  | cons p rest ih =>
    rcases p with ⟨k, v⟩
    by_cases hk : k == name
    · simp [setTemplate, hk, lookupTemplate]
    · simp [setTemplate, hk, lookupTemplate, ih]

theorem lookupTemplate_set_ne {name m : Text} (t : Template) (st : RendererState)
    (h : m ≠ name) :
    lookupTemplate m (setTemplate name t st) = lookupTemplate m st := by
  have hnm : (name == m) = false := beq_eq_false_iff_ne.mpr (Ne.symm h)
  induction st with
  | nil => simp [setTemplate, lookupTemplate, hnm]
  | cons p rest ih =>
    rcases p with ⟨k, v⟩
    by_cases hk : k == name
    · have hkeq : k = name := by simpa using hk
      subst hkeq
      simp [setTemplate, lookupTemplate, hnm]
    · simp only [setTemplate, hk, Bool.false_eq_true, if_false, lookupTemplate]
      split
      · rfl
      · exact ih

theorem render_ne_invalidArgs (st : RendererState) (name : Text)
    (ctx : TemplateContext) : render st name ctx ≠ .error .invalidArgs := by
  unfold render
  rcases hl : lookupTemplate name st with _ | t
  · simp
  · rcases he : t (mkTemplateVars ctx) with c | s <;> simp [he]

/-! ## Claim theorems. -/

set_option maxRecDepth 200000

/-- C5: for every lorebook and scan context, the output of `findMatches` is
ordered: higher priority strictly earlier, ties broken by ascending
insertion order, and entries without an explicit priority treated as
priority 0 (the `getD 0` inside `matchPriority`/`entryLE`). -/
theorem c5_findMatches_ordering (rm : RegexOracle) (lb : Lorebook)
    (ctx : LorebookContext) :
    (findMatches rm lb ctx).Pairwise entryLE :=
  List.sorted_insertionSort entryLE _

/-- C7: `render` fails with a template-not-found condition exactly when the
name is unregistered, and when template evaluation throws it fails with a
render-error condition carrying the template name and the underlying cause
— neither failure is silently swallowed. -/
theorem c7_render_error_reporting (st : RendererState) (name : Text)
    (ctx : TemplateContext) :
    (lookupTemplate name st = none ↔
      render st name ctx = .error (.templateNotFound name)) ∧
    (∀ t cause, lookupTemplate name st = some t →
      t (mkTemplateVars ctx) = .error cause →
      render st name ctx = .error (.renderFailed name cause)) := by
  refine ⟨⟨fun h => ?_, fun h => ?_⟩, fun t cause hl he => ?_⟩
  · unfold render
    rw [h]
  · unfold render at h
    rcases hl : lookupTemplate name st with _ | t
    · rfl
    · rw [hl] at h
      simp at h
      rcases he : t (mkTemplateVars ctx) with c | s <;> rw [he] at h <;> simp at h
  · unfold render
    simp [hl, he]

/-- Witness for C7 at a concrete registry: an unregistered name reports
template-not-found, a throwing template reports the wrapped render error. -/
theorem c7_render_error_reporting_witness :
    render boomState ("missing".toList) sampleTemplateContext
      = .error (.templateNotFound ("missing".toList)) ∧
    render boomState ("boom".toList) sampleTemplateContext
      = .error (.renderFailed ("boom".toList) "kaput".toList) :=
  ⟨(c7_render_error_reporting boomState ("missing".toList) sampleTemplateContext).1.mp rfl,
   (c7_render_error_reporting boomState ("boom".toList) sampleTemplateContext).2
     (failTemplate ("kaput".toList)) "kaput".toList rfl rfl⟩

/-- C10: registering a template source that compiles under a name replaces
any previous registration under that name — every subsequent `render` of
that name uses the new template — while `render` under every other name is
unchanged (this covers the built-in names, which are ordinary keys of the
registry). -/
theorem c10_registerTemplate_override (compile : TemplateCompiler)
    (name src : Text) (st : RendererState) (t : Template) (ctx : TemplateContext)
    (h : compile src = .ok t) :
    registerTemplate compile name src st = .ok (setTemplate name t st) ∧
    (∀ out, t (mkTemplateVars ctx) = .ok out →
      render (setTemplate name t st) name ctx = .ok out) ∧
    (∀ m, m ≠ name →
      render (setTemplate name t st) m ctx = render st m ctx) := by
  refine ⟨?_, fun out hout => ?_, fun m hm => ?_⟩
  · unfold registerTemplate
    rw [h]
  · unfold render
    rw [lookupTemplate_set_self]
    simp [hout]
  · unfold render
    rw [lookupTemplate_set_ne t st hm]

/-- Witness for C10: overriding the built-in `default` name in a
default-shaped registry makes `render` use the new source, while `alpaca`
renders as before. -/
theorem c10_registerTemplate_override_witness :
    registerTemplate echoCompile ("default".toList) "NEW".toList defaultState
      = .ok (setTemplate ("default".toList) (okTemplate ("NEW".toList)) defaultState) ∧
    render (setTemplate ("default".toList) (okTemplate ("NEW".toList)) defaultState)
      "default".toList sampleTemplateContext = .ok ("NEW".toList) ∧
    render (setTemplate ("default".toList) (okTemplate ("NEW".toList)) defaultState)
      "alpaca".toList sampleTemplateContext
      = render defaultState ("alpaca".toList) sampleTemplateContext := by
  have h := c10_registerTemplate_override echoCompile ("default".toList) "NEW".toList
    defaultState (okTemplate ("NEW".toList)) sampleTemplateContext rfl
  exact ⟨h.1, h.2.1 ("NEW".toList) rfl, h.2.2 ("alpaca".toList) (by decide)⟩

/-- C4: `buildPrompt` fails with the invalid-arguments condition exactly
when neither a compiled context nor a character card is supplied; with at
least one of the two, that failure cannot occur (a persona alone goes
through the internal `compileStaticContext` fallback). -/
theorem c4_buildPrompt_invalid_args (rand : Nat → Nat) (rm : RegexOracle)
    (now : Text) (st : RendererState) (opts : PromptBuildOptions) :
    (opts.compiledContext = none → opts.characterCard = none →
      buildPrompt rand rm now st opts = .error .invalidArgs) ∧
    (opts.compiledContext.isSome = true ∨ opts.characterCard.isSome = true →
      buildPrompt rand rm now st opts ≠ .error .invalidArgs) := by
  constructor
  · intro h1 h2
    unfold buildPrompt buildPromptContext
    rw [h1, h2]
  · intro h
    unfold buildPrompt buildPromptContext
    rcases hc : opts.compiledContext with _ | c <;>
      rcases hcard : opts.characterCard with _ | card
    · rw [hc, hcard] at h
      simp at h
    · exact render_ne_invalidArgs _ _ _
    · exact render_ne_invalidArgs _ _ _
    · exact render_ne_invalidArgs _ _ _

/-- Witness for C4: with neither argument the call fails with the
invalid-arguments condition; with a persona alone it does not. -/
theorem c4_buildPrompt_invalid_args_witness :
    buildPrompt randZero rmNever [] [] noArgOpts = .error .invalidArgs ∧
    buildPrompt randZero rmNever [] [] cardOpts ≠ .error .invalidArgs :=
  ⟨(c4_buildPrompt_invalid_args randZero rmNever [] [] noArgOpts).1 rfl rfl,
   (c4_buildPrompt_invalid_args randZero rmNever [] [] cardOpts).2 (Or.inr rfl)⟩



/-- C2: an entry with `enabled = false` is absent from the output of
`findMatches` regardless of constant flag or forced activate decorator,
and `compileStaticContext` admits into its constant-entries list only
entries that are both enabled and constant. -/
theorem c2_disabled_entries_excluded :
    (∀ (rm : RegexOracle) (lb : Lorebook) (ctx : LorebookContext)
        (e : LorebookEntry), e.enabled = false →
      e ∉ (findMatches rm lb ctx).map MatchedEntry.entry) ∧
    (∀ (rand : Nat → Nat) (rm : RegexOracle) (card : CharacterCardV3)
        (u : Text) (gi : Option Int),
      ((compileStaticContextS rand rm card u gi 0).1.constantLorebookEntries).all
        (fun m => m.entry.enabled && (m.entry.constant == some true)) = true) := by
  constructor
  · intro rm lb ctx e hdis hmem
    obtain ⟨m, hm, hme⟩ := List.mem_map.mp hmem
    obtain ⟨e', he', hev⟩ := mem_findMatches hm
    obtain ⟨hent, hen, -⟩ := evalEntry_some hev
    rw [hme] at hent
    rw [hent, hen] at hdis
    exact Bool.noConfusion hdis
  · intro rand rm card u gi
    rw [List.all_eq_true]
    intro m hmem
    simp only [compileStaticContextS] at hmem
    obtain ⟨book, hbook, e, he, hen, hconst, m0, hm0, hentry⟩ :=
      constantEntriesS_mem hmem
    obtain ⟨e', he', hev⟩ := mem_findMatches hm0
    simp only [List.mem_singleton] at he'
    have hm0e : m0.entry = e := (evalEntry_some hev).1.trans he'
    rw [hentry, hm0e, hen, hconst]
    rfl

/-- Witness for C2: a disabled constant entry with a forced activate
decorator stays absent even when its key occurs in the scan text, and a
compiled static context over a constant-entry book passes the
enabled-and-constant check. -/
theorem c2_disabled_entries_excluded_witness :
    disabledActivateEntry ∉
      (findMatches rmNever ⟨[disabledActivateEntry]⟩ sampleScanCtx).map
        MatchedEntry.entry ∧
    ((compileStaticContextS randZero rmNever constCard ("Bob".toList)
        none 0).1.constantLorebookEntries).all
      (fun m => m.entry.enabled && (m.entry.constant == some true)) = true :=
  ⟨c2_disabled_entries_excluded.1 rmNever ⟨[disabledActivateEntry]⟩
      sampleScanCtx disabledActivateEntry rfl,
   c2_disabled_entries_excluded.2 randZero rmNever constCard ("Bob".toList) none⟩

/-- C6 counterexample: a persona with a present-but-empty nickname.  The
nickname is present, yet the resolved character name is the persona name
(JavaScript `data.nickname || data.name` treats the empty string as
absent), so the replacement does not equal the nickname. -/
theorem c6_blank_nickname_counterexample :
    ariaBlankNickCard.data.nickname = some [] ∧
    (compileStaticContextS randZero rmNever ariaBlankNickCard ("Sam".toList)
        none 0).1.characterName = "Aria".toList ∧
    (compileStaticContextS randZero rmNever ariaBlankNickCard ("Sam".toList)
        none 0).1.characterName ≠ ([] : Text) := by
  refine ⟨rfl, by decide, by decide⟩

/-- C6 (amended): the char-reference macro resolves to the nickname when a
non-empty nickname is present and to the name otherwise (a missing or
empty nickname), and on the spec scenario persona Aria/Ari with user Sam,
`compileStaticContext` yields character name `Ari`, description
`Ari helps Sam` and greeting `Hi Sam!`. -/
theorem c6_char_resolution :
    (∀ (rand : Nat → Nat) (rm : RegexOracle) (card : CharacterCardV3)
        (u : Text) (gi : Option Int) (nick : Text),
      card.data.nickname = some nick → nick ≠ [] →
      (compileStaticContextS rand rm card u gi 0).1.characterName = nick) ∧
    (∀ (rand : Nat → Nat) (rm : RegexOracle) (card : CharacterCardV3)
        (u : Text) (gi : Option Int),
      card.data.nickname = none ∨ card.data.nickname = some [] →
      (compileStaticContextS rand rm card u gi 0).1.characterName
        = card.data.name) ∧
    (∀ (rand : Nat → Nat) (rm : RegexOracle),
      (compileStaticContextS rand rm ariaCard ("Sam".toList) none 0).1.characterName
          = "Ari".toList ∧
      (compileStaticContextS rand rm ariaCard ("Sam".toList) none 0).1.description
          = "Ari helps Sam".toList ∧
      (compileStaticContextS rand rm ariaCard ("Sam".toList) none 0).1.greeting
          = "Hi Sam!".toList) := by
  refine ⟨?_, ?_, ?_⟩
  · intro rand rm card u gi nick hnick hne
    simp only [compileStaticContextS, resolvedName, hnick]
    simp [List.isEmpty_iff, hne]
  · intro rand rm card u gi h
    rcases h with h | h <;> simp [compileStaticContextS, resolvedName, h]
  · intro rand rm
    exact ⟨rfl, rfl, rfl⟩

/-- Witness for C6: the non-empty-nickname clause at the Aria persona and
the no-nickname clause at the plain persona. -/
theorem c6_char_resolution_witness :
    (compileStaticContextS randZero rmNever ariaCard ("Sam".toList)
        none 0).1.characterName = "Ari".toList ∧
    (compileStaticContextS randZero rmNever plainCard ("Sam".toList)
        none 0).1.characterName = "Alice".toList :=
  ⟨c6_char_resolution.1 randZero rmNever ariaCard ("Sam".toList) none
      "Ari".toList rfl (by decide),
   c6_char_resolution.2.1 randZero rmNever plainCard ("Sam".toList) none
      (Or.inl rfl)⟩

/-- C8: for a non-empty string `T` free of macro delimiters, the reverse
macro pass turns the reverse macro around `T` into `T` reversed, and
applying the reverse macro again to that output returns `T` (involution). -/
theorem c8_reverse_involution (T : Text) (hne : T ≠ [])
    (hfree : ∀ ch ∈ T, ch ≠ '\x7b' ∧ ch ≠ '\x7d') :
    replaceReverse (reverseOpen ++ T ++ close2) = T.reverse ∧
    replaceReverse (reverseOpen ++ T.reverse ++ close2) = T := by
  have h1 : ∀ ch ∈ T, ch ≠ '\x7d' := fun ch hch => (hfree ch hch).2
  constructor
  · exact scanReplace_exact _ _ _ _ (by decide) (Or.inr hne) h1
  · have h2 : ∀ ch ∈ T.reverse, ch ≠ '\x7d' :=
      fun ch hch => h1 ch (List.mem_reverse.mp hch)
    have h3 : T.reverse ≠ [] := by simpa using hne
    have h4 := scanReplace_exact reverseOpen false List.reverse T.reverse
      (by decide) (Or.inr h3) h2
    unfold replaceReverse
    rw [h4, List.reverse_reverse]

/-- Witness for C8 at `T = hello`. -/
theorem c8_reverse_involution_witness :
    replaceReverse (reverseOpen ++ "hello".toList ++ close2) = "olleh".toList ∧
    replaceReverse (reverseOpen ++ "olleh".toList ++ close2) = "hello".toList := by
  have h := c8_reverse_involution ("hello".toList) (by decide) (by decide)
  exact ⟨h.1, h.2⟩



theorem splitOnChar_ne_nil (sep : Char) (l : Text) : splitOnChar sep l ≠ [] := by
  cases l with
  | nil => simp [splitOnChar]
  | cons c rest =>
    unfold splitOnChar
    split <;> simp

theorem optionsOf_ne_nil (inner : Text) : optionsOf inner ≠ [] := by
  unfold optionsOf
  simp [splitOnChar_ne_nil]

/-- C3: with no random and no roll occurrence in the processed text, two
runs of the macro processor with the same text and conversation identifier
agree for any two random streams; and each pick macro resolves via the
stable string hash of the seed concatenated with the exact matched macro
text, reduced modulo the option count. -/
theorem c3_pick_determinism :
    (∀ (r1 r2 : Nat → Nat) (text : Text) (ctx : CBSContext),
      hasCBSMatch randomOpen false (cbsStage4 text ctx) = false →
      hasRollMatch (cbsStage6 text ctx) = false →
      processR r1 text ctx = processR r2 text ctx) ∧
    (∀ (seed inner : Text), inner ≠ [] → (∀ ch ∈ inner, ch ≠ '\x7d') →
      replacePick (pickOpen ++ inner ++ close2) seed =
        (optionsOf inner).getD
          ((simpleHash (seed ++ pickOpen ++ inner ++ close2)).natAbs %
            (optionsOf inner).length) []) := by
  constructor
  · intro r1 r2 text ctx h1 h2
    have h1' : hasCBSMatch randomOpen false
        (replaceUser (replaceChar (removeComments (removeHiddenKeys text))
          ctx.charName) ctx.userName) = false := h1
    have h2' : hasRollMatch
        (replacePick (replaceUser (replaceChar (removeComments (removeHiddenKeys text))
          ctx.charName) ctx.userName) (ctx.conversationId.getD [])) = false := h2
    simp only [processR, processS]
    rw [replaceRandomS_id r1 0 _ h1', replaceRandomS_id r2 0 _ h1']
    dsimp only
    rw [replaceRollS_id r1 0 _ h2', replaceRollS_id r2 0 _ h2']
  · intro seed inner hne hnb
    have h := scanReplace_exact pickOpen false (pickMk seed) inner
      (by decide) (Or.inr hne) hnb
    unfold replacePick
    rw [h]
    unfold pickMk
    have hni : ¬((optionsOf inner).isEmpty = true) := by
      simp [List.isEmpty_iff, optionsOf_ne_nil inner]
    rw [if_neg hni]

/-- Witness for C3: the pick macro resolves identically under two
different random streams, and a concrete pick body goes through the hash
selection. -/
theorem c3_pick_determinism_witness :
    processR randZero ("Color: \x7b\x7bpick:red,green,blue\x7d\x7d".toList)
        ⟨"Alice".toList, "Bob".toList, some ("test-conv-123".toList)⟩
      = processR randShift ("Color: \x7b\x7bpick:red,green,blue\x7d\x7d".toList)
        ⟨"Alice".toList, "Bob".toList, some ("test-conv-123".toList)⟩ ∧
    replacePick (pickOpen ++ "red,green,blue".toList ++ close2) "s".toList
      = (optionsOf ("red,green,blue".toList)).getD
          ((simpleHash ("s".toList ++ pickOpen ++ "red,green,blue".toList
            ++ close2)).natAbs % (optionsOf ("red,green,blue".toList)).length) [] :=
  ⟨c3_pick_determinism.1 randZero randShift _ _ (by decide) (by decide),
   c3_pick_determinism.2 ("s".toList) "red,green,blue".toList (by decide) (by decide)⟩

/-- C9: a constant entry gated by `activate_only_after n` with `n ≥ 1` is
absent from the compiled constant-entries list (`compileStaticContext`
evaluates constant entries against an empty scan context with an
assistant-message count of 0), and since `buildPrompt` filters constant
entries out of dynamic matching, the entry is absent from the entry list
of every render context `buildPrompt` assembles over that persona. -/
theorem c9_gated_constant_entry_never_in_prompt
    (rand rand2 : Nat → Nat) (rm rm2 : RegexOracle) (now u : Text)
    (gi : Option Int) (card : CharacterCardV3) (e : LorebookEntry) (n : Nat)
    (opts : PromptBuildOptions) (tc : TemplateContext)
    (hconst : e.constant = some true)
    (hdec : (parseDecorators e.content).1.activate_only_after = some n)
    (hn : 1 ≤ n)
    (hcard : opts.characterCard = some card)
    (hcc : opts.compiledContext = none ∨
      opts.compiledContext = some (compileStaticContextS rand2 rm2 card u gi 0).1)
    (htc : buildPromptContext rand rm now opts = some tc) :
    e ∉ ((compileStaticContextS rand2 rm2 card u gi 0).1.constantLorebookEntries).map
        MatchedEntry.entry ∧
    e ∉ tc.lorebookEntries.map MatchedEntry.entry := by
  have habs : ∀ (ra : Nat → Nat) (ro : RegexOracle) (uu : Text) (g : Option Int),
      e ∉ ((compileStaticContextS ra ro card uu g 0).1.constantLorebookEntries).map
        MatchedEntry.entry := by
    intro ra ro uu g hmem
    obtain ⟨x, hx, hxe⟩ := List.mem_map.mp hmem
    simp only [compileStaticContextS] at hx
    obtain ⟨book, hbook, e', he', hen, hconst', m0, hm0, hentry⟩ :=
      constantEntriesS_mem hx
    obtain ⟨e'', he'', hev⟩ := mem_findMatches hm0
    simp only [List.mem_singleton] at he''
    rw [he''] at hev
    have hee : e' = e := by
      rw [← (evalEntry_some hev).1, ← hentry, hxe]
    rw [hee] at hev
    have hnone : evalEntry ro ⟨[], card.data, [], 0⟩ e = none :=
      evalEntry_none_of_after hdec hn
    rw [hnone] at hev
    exact Option.noConfusion hev
  have hdyn : ∀ (context : CompiledContext) (c0 : Nat),
      tc = buildPromptSteps rand rm now opts context c0 →
      (∀ y ∈ context.constantLorebookEntries.map MatchedEntry.entry, y ≠ e) →
      e ∉ tc.lorebookEntries.map MatchedEntry.entry := by
    intro context c0 hteq hcst hmem
    obtain ⟨x, hx, hxe⟩ := List.mem_map.mp hmem
    rw [hteq] at hx
    simp only [buildPromptSteps] at hx
    rcases List.mem_append.mp hx with hxc | hxd
    · exact hcst x.entry (List.mem_map.mpr ⟨x, hxc, rfl⟩) hxe
    · obtain ⟨lb0, hlb, hxent⟩ := processDynamicContentS_entry hxd
      rw [List.mem_filter] at hxent
      have h2 := hxent.2
      rw [hxe, hconst] at h2
      simp at h2
  refine ⟨habs rand2 rm2 u gi, ?_⟩
  unfold buildPromptContext at htc
  rcases hcc with hccn | hccs
  · rw [hccn, hcard] at htc
    simp only [Option.some.injEq] at htc
    exact hdyn _ _ htc.symm
      (fun y hy hye => habs rand rm _ none (hye ▸ hy))
  · rw [hccs] at htc
    simp only [Option.some.injEq] at htc
    exact hdyn _ _ htc.symm
      (fun y hy hye => habs rand2 rm2 u gi (hye ▸ hy))

/-- Witness for C9: the gated constant `secret` entry is absent from the
compiled static context and from the render context of a concrete
`buildPrompt` call over its persona. -/
theorem c9_gated_constant_entry_never_in_prompt_witness :
    secretEntry ∉ ((compileStaticContextS randZero rmNever secretCard
        "User".toList none 0).1.constantLorebookEntries).map MatchedEntry.entry ∧
    secretEntry ∉ c9Tc.lorebookEntries.map MatchedEntry.entry :=
  c9_gated_constant_entry_never_in_prompt randZero randZero rmNever rmNever
    [] "User".toList none secretCard secretEntry 2 c9Opts c9Tc
    rfl (by decide) (by decide) rfl (Or.inl rfl) rfl



/-- C1 (code bug): the pipeline strips hidden-key markers from messages
before it builds the scan text, and only then extracts hidden keys from
the already-stripped text, so the extracted list is empty and the marker
never widens the scan text; the scan text also receives the processed (not
raw) user prompt.  Concretely: the history message carries a
`hidden_key:dragon` marker, yet the dragon-keyed entry is absent from the
entry list `buildPrompt` assembles, the extracted hidden keys of the
pipeline scan text are `[]`, and the scan text never contains `dragon`;
with a char-reference macro as the user prompt, the trailing message
passed to scanning carries the substituted name. -/
theorem c1_hidden_keys_do_not_widen_scan :
    extractHiddenKeys hiddenMsg.content = ["dragon".toList] ∧
    (processS randZero 0 hiddenMsg.content c1CbsCtx).1 = "I saw a  today".toList ∧
    (buildPromptContext randZero rmNever [] c1Opts).map TemplateContext.messages
      = some [c1ProcMsg, c1CurrentMsg] ∧
    extractHiddenKeys (scanTextBase [c1ProcMsg, c1CurrentMsg] "hello".toList) = [] ∧
    containsSeq ("dragon".toList)
      (scanTextFull [c1ProcMsg, c1CurrentMsg] "hello".toList true) = false ∧
    (buildPromptContext randZero rmNever [] c1Opts).map TemplateContext.lorebookEntries
      = some [] ∧
    (buildPromptContext randZero rmNever [] c1OptsChar).map TemplateContext.messages
      = some [⟨"current".toList, [], Role.user, "Alice".toList, []⟩] :=
  ⟨by decide, by decide, by decide, by decide, by decide, by decide, by decide⟩


end ChatCF
